import Mathlib

/-!
Shallow embedding of the 0x-mesh `orderfilter` package (src/orderfilter/filter.go).

The logic of the package itself (topic generation, topic parsing, filter construction,
order validation against the composed JSON schema) is translated directly from
the Go source.  External collaborators are modelled at their interfaces:

* `canonicaljson.Unmarshal` / `canonicaljson.Marshal` (third-party library,
  treated by the spec as an abstract `canonicalize` capability) are modelled by
  an executable JSON parser and canonical serializer over a JSON value type
  whose objects are key-sorted association lists (Go decodes objects into
  `map[string]interface{}`, which forgets key order and keeps the last
  duplicate; `Marshal` then emits keys in sorted order).  Model scope: JSON
  numbers are modelled as integers and `\uXXXX` string escapes are not parsed;
  text is treated as a sequence of single-byte characters.
* `base64.URLEncoding` is modelled by an executable padded base64url
  encoder/decoder over byte lists.
* `fmt.Sprintf` / `fmt.Sscanf` on the fixed topic formats are modelled by
  explicit string building and scanning (`%d` skips leading spaces and reads an
  optionally signed decimal; `%s` skips leading spaces and reads a maximal
  non-whitespace token; literal runs must match exactly).
* `ethereum.GetContractAddressesForChainID` (repository code outside the given
  sources) is modelled from the spec as a finite chainID → exchange-address
  table; unknown chain IDs fail with a network-lookup error.
* `gojsonschema` is modelled by executable predicates translated from the
  schema source strings in filter.go, specialized to the default `{}` custom
  order schema, and by the observation that `(*SchemaLoader).Compile` /
  `AddSchema` dereference the receiver (so calling them on the nil loader that
  `newLoader` returns alongside an error panics at run time).
-/

namespace OrderFilter

/-- Whitespace as recognized by both the JSON grammar and `fmt.Sscanf`. -/
def isWsChar (c : Char) : Bool :=
  c = ' ' || c = '\t' || c = '\n' || c = '\r'

/-- Decimal digit character for a value below 10 (used by `%d` formatting). -/
def digitChar (n : Nat) : Char := "0123456789".data.getD n '0'

/-- Numeric value of a decimal digit character. -/
def digitVal (c : Char) : Nat := c.toNat - 48

/-- Value of a big-endian run of decimal digit characters. -/
def digitsVal (cs : List Char) : Nat :=
  cs.foldl (fun a c => a * 10 + digitVal c) 0

/-- Big-endian decimal digits of a natural number, with fuel for recursion. -/
def natToCharsAux : Nat → Nat → List Char
  | 0, _ => []
  | Nat.succ f, n =>
    if n < 10 then [digitChar n] else natToCharsAux f (n / 10) ++ [digitChar (n % 10)]

/-- Big-endian decimal digits of a natural number. -/
def natToChars (n : Nat) : List Char := natToCharsAux (n + 1) n

/-- Decimal rendering of an integer, as produced by the `%d` verb of
`fmt.Sprintf`. -/
def intToChars (i : Int) : List Char :=
  if i < 0 then '-' :: natToChars i.natAbs else natToChars i.toNat

/-- JSON values as decoded by `canonicaljson.Unmarshal` into `interface{}`:
object fields are kept as a key-sorted, duplicate-free association list,
mirroring the Go map (order-free, last duplicate wins)
together with the sorted iteration order used by `canonicaljson.Marshal`.
Numbers are modelled as integers. -/
inductive Json where
  | null
  | bool (b : Bool)
  | num (n : Int)
  | str (s : String)
  | arr (elems : List Json)
  | obj (fields : List (String × Json))

/-- Strict ordering on keys by code point, the order `canonicaljson.Marshal`
uses to emit the members of a Go map. -/
def keyLtB : List Char → List Char → Bool
  | [], [] => false
  | [], _ :: _ => true
  | _ :: _, [] => false
  | a :: as, b :: bs =>
    if a.toNat < b.toNat then true
    else if b.toNat < a.toNat then false
    else keyLtB as bs

/-- Insert a decoded object member into the sorted member list; a member with
an equal key is overwritten (Go map semantics: the last duplicate wins). -/
def insertField (fs : List (String × Json)) (kv : String × Json) : List (String × Json) :=
  match fs with
  | [] => [kv]
  | (k, v) :: rest =>
    if kv.1 = k then (kv.1, kv.2) :: rest
    else if keyLtB kv.1.data k.data then kv :: (k, v) :: rest
    else (k, v) :: insertField rest kv

/-- Fold the textual member order into the sorted map model. -/
def buildObj (fs : List (String × Json)) : List (String × Json) :=
  fs.foldl insertField []

/-- Character values of the two-character JSON string escapes accepted by the
decoder (the u-escapes are outside the scope of the model). -/
def escChar (e : Char) : Option Char :=
  if e = '"' then some '"'
  else if e = '\\' then some '\\'
  else if e = '/' then some '/'
  else if e = 'n' then some '\n'
  else if e = 't' then some '\t'
  else if e = 'r' then some '\r'
  else if e = 'b' then some '\x08'
  else if e = 'f' then some '\x0c'
  else none

/-- Decode the body of a JSON string literal (after the opening quote),
accumulating decoded characters in reverse. -/
def parseStrBody : List Char → List Char → Option (String × List Char)
  | [], _ => none
  | '"' :: r, acc => some (String.mk acc.reverse, r)
  | '\\' :: e :: r, acc =>
    match escChar e with
    | some c => parseStrBody r (c :: acc)
    | none => none
  | c :: r, acc => parseStrBody r (c :: acc)

/-- Read a maximal run of decimal digits and its value. -/
def parseNatPart (cs : List Char) : Option (Nat × List Char) :=
  let ds := cs.takeWhile Char.isDigit
  if ds.isEmpty then none else some (digitsVal ds, cs.dropWhile Char.isDigit)

/-- Recursion modes of the JSON parser: a value, an array tail, a mandatory
array element, an object tail, a mandatory object member. -/
inductive PMode where
  | val
  | arrTail
  | arrElem
  | objTail
  | objMember

/-- Intermediate parser results for the modes of `PMode`. -/
inductive PRes where
  | v (j : Json)
  | elems (js : List Json)
  | fields (fs : List (String × Json))

/-- Fuel-indexed recursive-descent JSON parser, the model of
`canonicaljson.Unmarshal` into `interface{}`. -/
def parseStep : Nat → PMode → List Char → Option (PRes × List Char)
  | 0, _, _ => none
  | Nat.succ fuel, PMode.val, cs =>
    match List.dropWhile isWsChar cs with
    | 'n' :: 'u' :: 'l' :: 'l' :: r => some (PRes.v Json.null, r)
    | 't' :: 'r' :: 'u' :: 'e' :: r => some (PRes.v (Json.bool true), r)
    | 'f' :: 'a' :: 'l' :: 's' :: 'e' :: r => some (PRes.v (Json.bool false), r)
    | '"' :: r =>
      match parseStrBody r [] with
      | some (s, r2) => some (PRes.v (Json.str s), r2)
      | none => none
    | '[' :: r =>
      match parseStep fuel PMode.arrTail r with
      | some (PRes.elems js, r2) => some (PRes.v (Json.arr js), r2)
      | _ => none
    | '\x7b' :: r =>
      match parseStep fuel PMode.objTail r with
      | some (PRes.fields fs, r2) => some (PRes.v (Json.obj (buildObj fs)), r2)
      | _ => none
    | '-' :: r =>
      match parseNatPart r with
      | some (n, r2) => some (PRes.v (Json.num (-(n : Int))), r2)
      | none => none
    | c :: r =>
      if c.isDigit then
        match parseNatPart (c :: r) with
        | some (n, r2) => some (PRes.v (Json.num (n : Int)), r2)
        | none => none
      else none
    | [] => none
  | Nat.succ fuel, PMode.arrTail, cs =>
    match List.dropWhile isWsChar cs with
    | ']' :: r => some (PRes.elems [], r)
    | cs2 => parseStep fuel PMode.arrElem cs2
  | Nat.succ fuel, PMode.arrElem, cs =>
    match parseStep fuel PMode.val cs with
    | some (PRes.v j, r) =>
      (match List.dropWhile isWsChar r with
       | ']' :: r2 => some (PRes.elems [j], r2)
       | ',' :: r2 =>
         match parseStep fuel PMode.arrElem r2 with
         | some (PRes.elems js, r3) => some (PRes.elems (j :: js), r3)
         | _ => none
       | _ => none)
    | _ => none
  | Nat.succ fuel, PMode.objTail, cs =>
    match List.dropWhile isWsChar cs with
    | '\x7d' :: r => some (PRes.fields [], r)
    | cs2 => parseStep fuel PMode.objMember cs2
  | Nat.succ fuel, PMode.objMember, cs =>
    match List.dropWhile isWsChar cs with
    | '"' :: r =>
      match parseStrBody r [] with
      | some (k, r1) =>
        (match List.dropWhile isWsChar r1 with
         | ':' :: r2 =>
           match parseStep fuel PMode.val r2 with
           | some (PRes.v j, r3) =>
             (match List.dropWhile isWsChar r3 with
              | '\x7d' :: r4 => some (PRes.fields [(k, j)], r4)
              | ',' :: r4 =>
                match parseStep fuel PMode.objMember r4 with
                | some (PRes.fields fs, r5) => some (PRes.fields ((k, j) :: fs), r5)
                | _ => none
              | _ => none)
           | _ => none
         | _ => none)
      | none => none
    | _ => none

/-- Top-level JSON decoding of a whole text, the model of
`canonicaljson.Unmarshal(text, &holder)`: a single value, optionally
surrounded by whitespace, with nothing after it. -/
def parseTop (s : String) : Option Json :=
  match parseStep (3 * s.length + 8) PMode.val s.data with
  | some (PRes.v j, r) => if (List.dropWhile isWsChar r).isEmpty then some j else none
  | _ => none

/-- Lowercase hexadecimal digit character (used for control-character
escapes). -/
def hexDigitChar (n : Nat) : Char := "0123456789abcdef".data.getD n '0'

/-- Canonical escaping of one character inside a JSON string literal. -/
def escapeStringChar (c : Char) : List Char :=
  if c = '"' then ['\\', '"']
  else if c = '\\' then ['\\', '\\']
  else if c.toNat < 32 then
    ['\\', 'u', '0', '0', hexDigitChar (c.toNat / 16), hexDigitChar (c.toNat % 16)]
  else [c]

/-- Canonical serialization of a JSON string literal. -/
def serializeString (s : String) : List Char :=
  '"' :: (s.data.flatMap escapeStringChar ++ ['"'])

mutual

/-- Canonical serialization of a JSON value, the model of
`canonicaljson.Marshal`: no insignificant whitespace, object members emitted
in the stored (sorted) key order. -/
def serializeVal : Json → List Char
  | Json.null => ['n', 'u', 'l', 'l']
  | Json.bool true => ['t', 'r', 'u', 'e']
  | Json.bool false => ['f', 'a', 'l', 's', 'e']
  | Json.num n => intToChars n
  | Json.str s => serializeString s
  | Json.arr es => '[' :: (serializeElems es ++ [']'])
  | Json.obj fs => '\x7b' :: (serializeFields fs ++ ['\x7d'])

/-- Comma-separated serialization of array elements. -/
def serializeElems : List Json → List Char
  | [] => []
  | [j] => serializeVal j
  | j :: j2 :: rest => serializeVal j ++ ',' :: serializeElems (j2 :: rest)

/-- Comma-separated serialization of object members. -/
def serializeFields : List (String × Json) → List Char
  | [] => []
  | [(k, v)] => serializeString k ++ ':' :: serializeVal v
  | (k, v) :: f2 :: rest =>
    serializeString k ++ ':' :: serializeVal v ++ ',' :: serializeFields (f2 :: rest)

end

/-- The composite performed by `generateTopic` before base64 encoding:
`canonicaljson.Unmarshal` into a holder initialized to `struct{}{}` with the
error discarded, then `canonicaljson.Marshal` of the holder.  On any decode
failure the holder is untouched and marshals to the two bytes of an empty
object. -/
def canonicalizeChars (s : String) : List Char :=
  match parseTop s with
  | some j => serializeVal j
  | none => "\x7b\x7d".data

/-- The base64url alphabet used by `base64.URLEncoding`. -/
def b64Alphabet : List Char :=
  "ABCDEFGHIJKLMNOPQRSTUVWXYZabcdefghijklmnopqrstuvwxyz0123456789-_".data

/-- Character for a six-bit value. -/
def b64Char (n : Nat) : Char := b64Alphabet.getD n 'A'

/-- Position of a character in a character list, if present. -/
def b64IndexAux : List Char → Nat → Char → Option Nat
  | [], _, _ => none
  | a :: as, i, c => if a = c then some i else b64IndexAux as (i + 1) c

/-- Six-bit value of a base64url character, if it is in the alphabet. -/
def b64Index (c : Char) : Option Nat := b64IndexAux b64Alphabet 0 c

/-- Padded base64url encoding of a byte sequence, the model of
`base64.URLEncoding.EncodeToString`. -/
def b64Encode : List Nat → List Char
  | [] => []
  | [b1] => [b64Char (b1 / 4), b64Char (b1 % 4 * 16), '=', '=']
  | [b1, b2] => [b64Char (b1 / 4), b64Char (b1 % 4 * 16 + b2 / 16), b64Char (b2 % 16 * 4), '=']
  | b1 :: b2 :: b3 :: rest =>
    b64Char (b1 / 4) :: b64Char (b1 % 4 * 16 + b2 / 16) ::
    b64Char (b2 % 16 * 4 + b3 / 64) :: b64Char (b3 % 64) :: b64Encode rest

/-- Padded base64url decoding, the model of
`base64.URLEncoding.DecodeString`: four-character blocks, padding only in the
final block, every non-padding character taken from the alphabet. -/
def b64Decode : List Char → Option (List Nat)
  | [] => some []
  | c1 :: c2 :: c3 :: c4 :: rest =>
    if c3 = '=' then
      if c4 = '=' && rest.isEmpty then
        match b64Index c1, b64Index c2 with
        | some i1, some i2 => some [i1 * 4 + i2 / 16]
        | _, _ => none
      else none
    else if c4 = '=' then
      if rest.isEmpty then
        match b64Index c1, b64Index c2, b64Index c3 with
        | some i1, some i2, some i3 => some [i1 * 4 + i2 / 16, i2 % 16 * 16 + i3 / 4]
        | _, _, _ => none
      else none
    else
      match b64Index c1, b64Index c2, b64Index c3, b64Index c4, b64Decode rest with
      | some i1, some i2, some i3, some i4, some bs =>
        some ((i1 * 4 + i2 / 16) :: (i2 % 16 * 16 + i3 / 4) :: (i3 % 4 * 64 + i4) :: bs)
      | _, _, _, _, _ => none
  | _ => none

/-- Consume an exact literal run of format characters, the way `fmt.Sscanf`
matches the non-verb characters of a format string. -/
def dropLiteral : List Char → List Char → Option (List Char)
  | [], cs => some cs
  | _ :: _, [] => none
  | l :: ls, c :: cs => if l = c then dropLiteral ls cs else none

/-- The `%s` verb of `fmt.Sscanf`: skip leading whitespace, then read a
maximal non-empty run of non-whitespace characters. -/
def token (cs : List Char) : Option (List Char × List Char) :=
  let cs1 := List.dropWhile isWsChar cs
  let t := cs1.takeWhile (fun c => !isWsChar c)
  if t.isEmpty then none else some (t, cs1.dropWhile (fun c => !isWsChar c))

/-- An optionally signed run of decimal digits at the head of the input. -/
def parseSigned : List Char → Option (Int × List Char)
  | [] => none
  | c :: r =>
    if c = '-' then (parseNatPart r).map (fun p => (-(p.1 : Int), p.2))
    else if c = '+' then (parseNatPart r).map (fun p => ((p.1 : Int), p.2))
    else (parseNatPart (c :: r)).map (fun p => ((p.1 : Int), p.2))

/-- The `%d` verb of `fmt.Sscanf`: skip leading whitespace, then read an
optionally signed run of decimal digits. -/
def parseIntFrom (cs : List Char) : Option (Int × List Char) :=
  parseSigned (List.dropWhile isWsChar cs)

/-- The literal segments of `fullTopicFormat`. -/
def topicVersionLit : List Char := "/0x-orders/version/".data

/-- The chain segment literal of the topic formats. -/
def topicChainLit : List Char := "/chain/".data

/-- The schema segment literal of the topic formats. -/
def topicSchemaLit : List Char := "/schema/".data

/-- The fixed pubsub topic protocol version of filter.go. -/
def pubsubTopicVersion : Int := 3

/-- Bytes of a text (model scope: one byte per character). -/
def strBytes (cs : List Char) : List Nat := cs.map Char.toNat

/-- Text of a byte sequence, as in the Go string(bytes) conversion. -/
def bytesStr (bs : List Nat) : List Char := bs.map Char.ofNat

/-- Expansion of `fmt.Sprintf(fullTopicFormat, pubsubTopicVersion, chainID,
base64EncodedSchema)`. -/
def mkTopicChars (chainID : Int) (schemaSeg : List Char) : List Char :=
  topicVersionLit ++ intToChars pubsubTopicVersion ++
  topicChainLit ++ intToChars chainID ++ topicSchemaLit ++ schemaSeg

/-- `(*Filter).generateTopic`: canonicalize the raw custom order schema
(discarding canonicalization errors), base64url-encode it, and format the full
topic string. -/
def generateTopic (chainID : Int) (rawCustomOrderSchema : String) : String :=
  String.mk (mkTopicChars chainID
    (b64Encode (strBytes (canonicalizeChars rawCustomOrderSchema))))

/-- The typed errors of the component: the network-lookup error of the
ethereum collaborator, the schema-decoding error of `AddSchema`, and the
topic-decoding errors of `NewFromTopic` (including `WrongTopicVersionError`
with its expected and actual version fields). -/
inductive FilterError where
  | networkLookup (chainID : Int)
  | invalidSchemaJson
  | topicVersionFormat
  | wrongTopicVersion (expectedVersion actualVersion : Int)
  | chainSchemaFormat
  | base64Format
deriving DecidableEq

/-- `fmt.Sscanf(topic, "/0x-orders/version/%d%s", &version,
&chainIDAndSchema)`: the parsed version and the captured remainder token. -/
def sscanfVersion (cs : List Char) : Option (Int × List Char) :=
  (dropLiteral topicVersionLit cs).bind fun r =>
    (parseIntFrom r).bind fun vr =>
      (token vr.2).bind fun ts => some (vr.1, ts.1)

/-- `fmt.Sscanf(chainIDAndSchema, "/chain/%d/schema/%s", &chainID,
&base64EncodedSchema)`. -/
def sscanfChainSchema (cs : List Char) : Option (Int × List Char) :=
  (dropLiteral topicChainLit cs).bind fun r =>
    (parseIntFrom r).bind fun cr =>
      (dropLiteral topicSchemaLit cr.2).bind fun r3 =>
        (token r3).bind fun ts => some (cr.1, ts.1)

/-- The chainID-and-schema scanning stage of `NewFromTopic` (filter.go lines
125-133): scan the chainID and base64 schema segment out of the captured
remainder, then base64url-decode the schema text. -/
def decodeTopicSchema (scanned : Option (Int × List Char)) : Except FilterError (Int × String) :=
  match scanned with
  | none => Except.error FilterError.chainSchemaFormat
  | some (chainID, b64cs) =>
    match b64Decode b64cs with
    | none => Except.error FilterError.base64Format
    | some bytes => Except.ok (chainID, String.mk (bytesStr bytes))

/-- The version guard of `NewFromTopic` (filter.go lines 116-124): a failed
version scan is a format error, a version other than `pubsubTopicVersion` is
a `WrongTopicVersionError` carrying the expected and actual versions, and
only then does decoding proceed to the chainID and schema segments. -/
def decodeTopicVersion (scanned : Option (Int × List Char)) : Except FilterError (Int × String) :=
  match scanned with
  | none => Except.error FilterError.topicVersionFormat
  | some (version, rest) =>
    if version ≠ pubsubTopicVersion then
      Except.error (FilterError.wrongTopicVersion pubsubTopicVersion version)
    else decodeTopicSchema (sscanfChainSchema rest)

/-- The parsing stage of `NewFromTopic` (filter.go lines 112-133). -/
def decodeTopic (topic : String) : Except FilterError (Int × String) :=
  decodeTopicVersion (sscanfVersion topic.data)

/-- Modelled from the spec: `ethereum.GetContractAddressesForChainID`
(repository code not under the given sources) resolves a network identifier to
its exchange contract address and fails for nonexistent network identifiers.
The table holds the checksummed exchange addresses of the known networks. -/
def knownExchangeAddresses : List (Int × String) :=
  [(1, "0x61935CbDd02287B511119DDb11Aeb42F1593b7Ef"),
   (1337, "0x48BaCB9266a570d521063EF5dD96e61686DbE788")]

/-- Modelled from the spec: the external address lookup, returning the
exchange address of a known network and a `NetworkLookupError` otherwise. -/
def GetContractAddressesForChainID (chainID : Int) : Except FilterError String :=
  match knownExchangeAddresses.lookup chainID with
  | some addr => Except.ok addr
  | none => Except.error (FilterError.networkLookup chainID)

/-- `loadExchangeAddress`: resolve the exchange address for the chain,
propagating the lookup error; the `oneOf` schema fragment it registers is
embedded as the predicate `exchangeAddressOK` below. -/
def loadExchangeAddress (chainID : Int) : Except FilterError String :=
  GetContractAddressesForChainID chainID

/-- The state a successful `newLoader` run leaves in the schema loader: the
resolved exchange address fragment and the custom order schema text. -/
structure SchemaLoaderState where
  exchangeAddress : String
  customOrderSchema : String
deriving DecidableEq

/-- `newLoader`: register the exchange address fragment (propagating the
lookup failure), the built-in schemas (constant, always succeeding), and the
custom order schema, whose text `AddSchema` decodes as JSON and rejects when
it is not decodable. -/
def newLoader (chainID : Int) (customOrderSchema : String) : Except FilterError SchemaLoaderState :=
  match loadExchangeAddress chainID with
  | Except.error e => Except.error e
  | Except.ok addr =>
    match parseTop customOrderSchema with
    | none => Except.error FilterError.invalidSchemaJson
    | some _ => Except.ok ⟨addr, customOrderSchema⟩

/-- A compiled validator, determined by the resolved exchange address and the
custom order schema registered in its loader. -/
structure CompiledSchema where
  exchangeAddress : String
  customOrderSchema : String
deriving DecidableEq

/-- The `Filter` struct of filter.go: the memoized topic, the (never
assigned) version field, the chain ID, the raw custom order schema text, and
the two compiled validators. -/
structure Filter where
  topic : String
  version : Int
  chainID : Int
  rawCustomOrderSchema : String
  orderSchema : CompiledSchema
  messageSchema : CompiledSchema
deriving DecidableEq

/-- The possible outcomes of running `New`: a constructed filter, a returned
typed error, or a run-time nil-pointer-dereference panic. -/
inductive NewOutcome where
  | ok (f : Filter)
  | err (e : FilterError)
  | nilDerefPanic
deriving DecidableEq

/-- `New(chainID, customOrderSchema)`.  Faithful to filter.go lines 64-85:
the error returned by `newLoader` is assigned to `err` but never checked
before `orderLoader.Compile` is called, so when `newLoader` fails (and
returns a nil loader) the call dereferences the nil `*SchemaLoader` receiver
and panics instead of returning the error.  On loader success, compiling the
root order and root message schemas against the loaders built here succeeds
and the filter is built with a zero-valued topic cache and version field. -/
def New (chainID : Int) (customOrderSchema : String) : NewOutcome :=
  match newLoader chainID customOrderSchema with
  | Except.error _ => NewOutcome.nilDerefPanic
  | Except.ok loader =>
    NewOutcome.ok
      { topic := "", version := 0, chainID := chainID,
        rawCustomOrderSchema := customOrderSchema,
        orderSchema := ⟨loader.exchangeAddress, customOrderSchema⟩,
        messageSchema := ⟨loader.exchangeAddress, customOrderSchema⟩ }

/-- `NewFromTopic(topic)`: decode the topic, propagating its typed errors,
then construct the filter from the decoded chain ID and schema text. -/
def NewFromTopic (topic : String) : NewOutcome :=
  match decodeTopic topic with
  | Except.error e => NewOutcome.err e
  | Except.ok (chainID, customOrderSchema) => New chainID customOrderSchema

/-- `(*Filter).Topic()`: return the memoized topic, computing and caching it
on first use.  The returned string is paired with the filter state after the
call. -/
def Topic (f : Filter) : String × Filter :=
  if f.topic = "" then
    (generateTopic f.chainID f.rawCustomOrderSchema,
     { f with topic := generateTopic f.chainID f.rawCustomOrderSchema })
  else (f.topic, f)

/-- Hexadecimal digit class `[0-9a-fA-F]` of the schema patterns. -/
def hexDigitB (c : Char) : Bool :=
  c.isDigit || ('a' ≤ c && c ≤ 'f') || ('A' ≤ c && c ≤ 'F')

/-- The `/address` schema: a string matching `^0x[0-9a-fA-F]{40}$`. -/
def addressOK : Json → Bool
  | Json.str s =>
    match s.data with
    | '0' :: 'x' :: rest => rest.length = 40 && rest.all hexDigitB
    | _ => false
  | _ => false

/-- The `/wholeNumber` schema: `anyOf` a string matching `^\d+$` or an
integer. -/
def wholeNumberOK : Json → Bool
  | Json.str s => !s.data.isEmpty && s.data.all Char.isDigit
  | Json.num _ => true
  | _ => false

/-- The `/hex` schema: a string matching `^0x(([0-9a-fA-F][0-9a-fA-F])+)?$`,
an even-length hex blob. -/
def hexOK : Json → Bool
  | Json.str s =>
    match s.data with
    | '0' :: 'x' :: rest => rest.all hexDigitB && rest.length % 2 = 0
    | _ => false
  | _ => false

/-- Whether the second list starts with the first. -/
def startsWithList : List Char → List Char → Bool
  | [], _ => true
  | _ :: _, [] => false
  | a :: as, b :: bs => a = b && startsWithList as bs

/-- Whether the first list occurs contiguously inside the second. -/
def containsSub (needle : List Char) : List Char → Bool
  | [] => startsWithList needle []
  | b :: bs => startsWithList needle (b :: bs) || containsSub needle bs

/-- An unanchored regex match of a pattern containing no metacharacters (the
exchange address patterns are plain hexadecimal literals), as evaluated by
the JSON-schema engine on `pattern` fragments. -/
def patternHit (pat : String) (s : String) : Bool := containsSub pat.data s.data

/-- Lowercasing of an address string, as in `strings.ToLower`. -/
def lowerString (s : String) : String := String.mk (s.data.map Char.toLower)

/-- JSON-schema `oneOf` of two branches: exactly one must hold. -/
def oneOf2 (a b : Bool) : Bool := (a && !b) || (!a && b)

/-- The `/exchangeAddress` fragment built by `loadExchangeAddress`: `oneOf`
two string patterns, the checksummed exchange address and its lowercased
form. -/
def exchangeAddressOK (exchangeHex : String) : Json → Bool
  | Json.str s => oneOf2 (patternHit exchangeHex s) (patternHit (lowerString exchangeHex) s)
  | _ => false

/-- One violation reported by the validator: a missing required property, a
failed property constraint, or a document that is not an object. -/
inductive Violation where
  | missingRequired (field : String)
  | failedConstraint (field : String)
  | wrongDocumentType
deriving DecidableEq

/-- The property schemas and required-field list of the composed
`/rootOrder` schema (the `allOf` of `/order` and `/signedOrder` flattened:
the thirteen required order properties plus the required `signature`),
specialized to the default `{}` custom order schema, which adds no
constraint. -/
def orderFieldSpecs (exchangeHex : String) : List (String × (Json → Bool)) :=
  [("makerAddress", addressOK),
   ("takerAddress", addressOK),
   ("makerFee", wholeNumberOK),
   ("takerFee", wholeNumberOK),
   ("senderAddress", addressOK),
   ("makerAssetAmount", wholeNumberOK),
   ("takerAssetAmount", wholeNumberOK),
   ("makerAssetData", hexOK),
   ("takerAssetData", hexOK),
   ("salt", wholeNumberOK),
   ("exchangeAddress", exchangeAddressOK exchangeHex),
   ("feeRecipientAddress", addressOK),
   ("expirationTimeSeconds", wholeNumberOK),
   ("signature", hexOK)]

/-- The names of the required fields of the composed signed-order schema. -/
def requiredOrderFields : List String :=
  ["makerAddress", "takerAddress", "makerFee", "takerFee", "senderAddress",
   "makerAssetAmount", "takerAssetAmount", "makerAssetData", "takerAssetData",
   "salt", "exchangeAddress", "feeRecipientAddress", "expirationTimeSeconds",
   "signature"]

/-- Violations contributed by one property: required presence plus the
property constraint when present. -/
def fieldViolations (fields : List (String × Json)) (spec : String × (Json → Bool)) : List Violation :=
  match fields.lookup spec.1 with
  | none => [Violation.missingRequired spec.1]
  | some v => if spec.2 v then [] else [Violation.failedConstraint spec.1]

/-- All violations of a document against the composed root order schema for
the default custom schema: the document must be an object (the `/order`
schema carries `"type":"object"`) and every required property must be present
and satisfy its fragment. -/
def rootOrderViolations (exchangeHex : String) (doc : Json) : List Violation :=
  match doc with
  | Json.obj fields => (orderFieldSpecs exchangeHex).flatMap (fieldViolations fields)
  | _ => [Violation.wrongDocumentType]

/-- The result type of the validation engine: a list of violations, empty
exactly when the document is valid. -/
structure ValidationResult where
  violations : List Violation
deriving DecidableEq

/-- `Result.Valid()`: no violations were recorded. -/
def ValidationResult.valid (r : ValidationResult) : Bool := r.violations.isEmpty

/-- Validation of a decoded document against the compiled root order
validator of a filter with the default custom schema. -/
def validateOrderDoc (exchangeHex : String) (doc : Json) : ValidationResult :=
  ⟨rootOrderViolations exchangeHex doc⟩

/-- `(*Filter).ValidateOrderJSON`: decode the document bytes and validate
them against the order validator; an undecodable document is a validation
engine error, distinct from an invalid result. -/
def ValidateOrderJSON (f : Filter) (orderJSON : String) : Except String ValidationResult :=
  match parseTop orderJSON with
  | none => Except.error "validation engine could not decode the document"
  | some doc => Except.ok (validateOrderDoc f.orderSchema.exchangeAddress doc)

/-- A document that contains every required field of the signed-order schema
with a correctly shaped value. -/
def orderFieldsWellShaped (exchangeHex : String) (fields : List (String × Json)) : Bool :=
  (orderFieldSpecs exchangeHex).all (fun spec =>
    match fields.lookup spec.1 with
    | some v => spec.2 v
    | none => false)

/-- Whether a text consists only of single-byte characters (the model's
byte-level view of Go strings). -/
def byteSized (cs : List Char) : Bool := cs.all (fun c => c.toNat < 256)

/-- Remove every member with the given key from the field list of a document. -/
def removeField (fields : List (String × Json)) (fname : String) : List (String × Json) :=
  fields.filter (fun p => !(p.1 == fname))

/-- The filter-state transition of one `Topic()` call. -/
def topicStep (f : Filter) : Filter := (Topic f).2

/-- A filter as `New(1, canonical two-member schema)` would build it, used as
a concrete test input. -/
def sampleFilterA : Filter :=
  ⟨"", 0, 1, "\x7b\"b\": 1, \"a\": 2\x7d", ⟨"x", "y"⟩, ⟨"x", "y"⟩⟩

/-- A filter over a textually different but semantically equal custom
schema. -/
def sampleFilterB : Filter :=
  ⟨"", 0, 1, "\x7b\"a\":2,\"b\":1\x7d", ⟨"x", "y"⟩, ⟨"x", "y"⟩⟩

/-- A filter with the default custom order schema, used as a concrete test
input. -/
def sampleFilterC : Filter :=
  ⟨"", 0, 1, "\x7b\x7d", ⟨"a", "b"⟩, ⟨"a", "b"⟩⟩

/-- The checksummed mainnet exchange address of the lookup table of the model. -/
def sampleExchangeAddress : String := "0x61935CbDd02287B511119DDb11Aeb42F1593b7Ef"

/-- A filter for chain 1 with the default custom order schema and its
resolved exchange address, as `New(1, DefaultCustomOrderSchema)` builds it. -/
def sampleOrderFilter : Filter :=
  ⟨"", 0, 1, "\x7b\x7d", ⟨sampleExchangeAddress, "\x7b\x7d"⟩, ⟨sampleExchangeAddress, "\x7b\x7d"⟩⟩

/-- A well-shaped signed-order document (fields in canonical key order). -/
def sampleOrderFields : List (String × Json) :=
  [("exchangeAddress", Json.str "0x61935CbDd02287B511119DDb11Aeb42F1593b7Ef"),
   ("expirationTimeSeconds", Json.str "1548619325"),
   ("feeRecipientAddress", Json.str "0xa258b39954cef5cb142fd567a46cddb31a670124"),
   ("makerAddress", Json.str "0x50f84bbee6fb250d6f49e854fa280445369d64d9"),
   ("makerAssetAmount", Json.str "100000000000000000"),
   ("makerAssetData", Json.str "0xf47261b0000000000000000000000000e41d2489571d322189246dafa5ebde1f4699f498"),
   ("makerFee", Json.str "0"),
   ("salt", Json.str "1548619145450"),
   ("senderAddress", Json.str "0x0000000000000000000000000000000000000000"),
   ("signature", Json.str "0x1b6a12"),
   ("takerAddress", Json.str "0x0000000000000000000000000000000000000000"),
   ("takerAssetAmount", Json.num 42),
   ("takerAssetData", Json.str "0x"),
   ("takerFee", Json.str "0")]

/-- The JSON text of `sampleOrderFields`. -/
def sampleOrderText : String :=
  "\x7b\"exchangeAddress\":\"0x61935CbDd02287B511119DDb11Aeb42F1593b7Ef\",\"expirationTimeSeconds\":\"1548619325\",\"feeRecipientAddress\":\"0xa258b39954cef5cb142fd567a46cddb31a670124\",\"makerAddress\":\"0x50f84bbee6fb250d6f49e854fa280445369d64d9\",\"makerAssetAmount\":\"100000000000000000\",\"makerAssetData\":\"0xf47261b0000000000000000000000000e41d2489571d322189246dafa5ebde1f4699f498\",\"makerFee\":\"0\",\"salt\":\"1548619145450\",\"senderAddress\":\"0x0000000000000000000000000000000000000000\",\"signature\":\"0x1b6a12\",\"takerAddress\":\"0x0000000000000000000000000000000000000000\",\"takerAssetAmount\":42,\"takerAssetData\":\"0x\",\"takerFee\":\"0\"\x7d"

/-- The JSON text of `sampleOrderFields` with the `salt` member removed. -/
def sampleOrderMinusSaltText : String :=
  "\x7b\"exchangeAddress\":\"0x61935CbDd02287B511119DDb11Aeb42F1593b7Ef\",\"expirationTimeSeconds\":\"1548619325\",\"feeRecipientAddress\":\"0xa258b39954cef5cb142fd567a46cddb31a670124\",\"makerAddress\":\"0x50f84bbee6fb250d6f49e854fa280445369d64d9\",\"makerAssetAmount\":\"100000000000000000\",\"makerAssetData\":\"0xf47261b0000000000000000000000000e41d2489571d322189246dafa5ebde1f4699f498\",\"makerFee\":\"0\",\"senderAddress\":\"0x0000000000000000000000000000000000000000\",\"signature\":\"0x1b6a12\",\"takerAddress\":\"0x0000000000000000000000000000000000000000\",\"takerAssetAmount\":42,\"takerAssetData\":\"0x\",\"takerFee\":\"0\"\x7d"

/-! Helper lemmas about the scanning and encoding building blocks. -/

theorem dropLiteral_append (lit r : List Char) : dropLiteral lit (lit ++ r) = some r := by
  induction lit with
  | nil => rfl
  | cons c cs ih => simp [dropLiteral, ih]

theorem ws_not_digit (c : Char) (h : isWsChar c = true) : c.isDigit = false := by
  unfold isWsChar at h
  simp only [Bool.or_eq_true, decide_eq_true_eq] at h
  rcases h with ((h | h) | h) | h <;> subst h <;> decide

theorem digit_not_ws (c : Char) (h : c.isDigit = true) : isWsChar c = false := by
  by_cases hw : isWsChar c = true
  · rw [ws_not_digit c hw] at h; exact absurd h (by simp)
  · simpa using hw

theorem digit_ne_minus (c : Char) (h : c.isDigit = true) : ¬ (c = '-') := by
  intro he; subst he; simp at h

theorem digit_ne_plus (c : Char) (h : c.isDigit = true) : ¬ (c = '+') := by
  intro he; subst he; simp at h

theorem takeWhile_all_append {p : Char → Bool} (l : List Char) (y : Char) (r : List Char)
    (hl : ∀ x ∈ l, p x = true) (hy : p y = false) :
    (l ++ y :: r).takeWhile p = l := by
  induction l with
  | nil => simp [List.takeWhile_cons, hy]
  | cons c cs ih =>
    have hc : p c = true := hl c (by simp)
    simp only [List.cons_append, List.takeWhile_cons, hc, if_true]
    rw [ih (fun x hx => hl x (by simp [hx]))]

theorem dropWhile_all_append {p : Char → Bool} (l : List Char) (y : Char) (r : List Char)
    (hl : ∀ x ∈ l, p x = true) (hy : p y = false) :
    (l ++ y :: r).dropWhile p = y :: r := by
  induction l with
  | nil => simp [List.dropWhile_cons, hy]
  | cons c cs ih =>
    have hc : p c = true := hl c (by simp)
    simp only [List.cons_append, List.dropWhile_cons, hc, if_true]
    exact ih (fun x hx => hl x (by simp [hx]))

theorem takeWhile_all {p : Char → Bool} (l : List Char) (hl : ∀ x ∈ l, p x = true) :
    l.takeWhile p = l := by
  induction l with
  | nil => rfl
  | cons c cs ih =>
    have hc : p c = true := hl c (by simp)
    simp only [List.takeWhile_cons, hc, if_true]
    rw [ih (fun x hx => hl x (by simp [hx]))]

theorem dropWhile_all {p : Char → Bool} (l : List Char) (hl : ∀ x ∈ l, p x = true) :
    l.dropWhile p = [] := by
  induction l with
  | nil => rfl
  | cons c cs ih =>
    have hc : p c = true := hl c (by simp)
    simp only [List.dropWhile_cons, hc, if_true]
    exact ih (fun x hx => hl x (by simp [hx]))

theorem dropWhile_of_head_false {p : Char → Bool} (c : Char) (r : List Char)
    (h : p c = false) : List.dropWhile p (c :: r) = c :: r := by
  simp [List.dropWhile_cons, h]

theorem digitChar_isDigit (n : Nat) (h : n < 10) : (digitChar n).isDigit = true := by
  interval_cases n <;> decide

theorem digitVal_digitChar (n : Nat) (h : n < 10) : digitVal (digitChar n) = n := by
  interval_cases n <;> decide

theorem natToCharsAux_digits (f : Nat) : ∀ n, n < f → ∀ c ∈ natToCharsAux f n, c.isDigit = true := by
  induction f with
  | zero => intro n hn; omega
  | succ f ih =>
    intro n hn c hc
    unfold natToCharsAux at hc
    by_cases h10 : n < 10
    · rw [if_pos h10] at hc
      simp only [List.mem_singleton] at hc
      subst hc; exact digitChar_isDigit n h10
    · rw [if_neg h10] at hc
      rcases List.mem_append.mp hc with hc | hc
      · exact ih (n / 10) (by omega) c hc
      · simp only [List.mem_singleton] at hc
        subst hc; exact digitChar_isDigit (n % 10) (by omega)

theorem natToCharsAux_ne_nil (f : Nat) : ∀ n, n < f → natToCharsAux f n ≠ [] := by
  induction f with
  | zero => intro n hn; omega
  | succ f _ =>
    intro n _
    unfold natToCharsAux
    by_cases h10 : n < 10
    · simp [h10]
    · simp [h10]

theorem natToCharsAux_val (f : Nat) : ∀ n, n < f → ∀ a : Nat,
    List.foldl (fun acc c => acc * 10 + digitVal c) a (natToCharsAux f n) =
      a * 10 ^ (natToCharsAux f n).length + n := by
  induction f with
  | zero => intro n hn; omega
  | succ f ih =>
    intro n hn a
    unfold natToCharsAux
    by_cases h10 : n < 10
    · rw [if_pos h10]
      simp [digitVal_digitChar n h10]
    · rw [if_neg h10]
      rw [List.foldl_append, ih (n / 10) (by omega) a]
      simp only [List.foldl_cons, List.foldl_nil, List.length_append, List.length_singleton]
      rw [digitVal_digitChar (n % 10) (by omega), pow_succ]
      have hmod : n / 10 * 10 + n % 10 = n := by omega
      calc (a * 10 ^ (natToCharsAux f (n / 10)).length + n / 10) * 10 + n % 10
          = a * (10 ^ (natToCharsAux f (n / 10)).length * 10) + (n / 10 * 10 + n % 10) := by ring
        _ = a * (10 ^ (natToCharsAux f (n / 10)).length * 10) + n := by rw [hmod]

theorem natToChars_digits (n : Nat) : ∀ c ∈ natToChars n, c.isDigit = true :=
  natToCharsAux_digits (n + 1) n (by omega)

theorem natToChars_ne_nil (n : Nat) : natToChars n ≠ [] :=
  natToCharsAux_ne_nil (n + 1) n (by omega)

theorem digitsVal_natToChars (n : Nat) : digitsVal (natToChars n) = n := by
  unfold digitsVal natToChars
  rw [natToCharsAux_val (n + 1) n (by omega) 0]
  simp

theorem intToChars_not_ws (i : Int) : ∀ c ∈ intToChars i, isWsChar c = false := by
  unfold intToChars
  by_cases hneg : i < 0
  · rw [if_pos hneg]
    intro c hc
    rcases List.mem_cons.mp hc with hc | hc
    · subst hc; decide
    · exact digit_not_ws c (natToChars_digits _ c hc)
  · rw [if_neg hneg]
    intro c hc
    exact digit_not_ws c (natToChars_digits _ c hc)

theorem parseNatPart_append (n : Nat) (y : Char) (r : List Char) (hy : y.isDigit = false) :
    parseNatPart (natToChars n ++ y :: r) = some (n, y :: r) := by
  unfold parseNatPart
  rw [takeWhile_all_append (natToChars n) y r (natToChars_digits n) hy,
      dropWhile_all_append (natToChars n) y r (natToChars_digits n) hy]
  rw [if_neg (by simpa [List.isEmpty_eq_false] using natToChars_ne_nil n)]
  rw [digitsVal_natToChars]

theorem parseIntFrom_intToChars (i : Int) (y : Char) (r : List Char) (hy : y.isDigit = false) :
    parseIntFrom (intToChars i ++ y :: r) = some (i, y :: r) := by
  unfold parseIntFrom intToChars
  by_cases hneg : i < 0
  · rw [if_pos hneg]
    rw [List.cons_append, dropWhile_of_head_false '-' _ (by decide)]
    simp only [parseSigned]
    rw [parseNatPart_append i.natAbs y r hy]
    simp only [Option.map_some', if_true, eq_self_iff_true, if_pos]
    simp
    rw [abs_of_neg hneg, neg_neg]
  · rw [if_neg hneg]
    obtain ⟨c, cs, hcons⟩ := List.exists_cons_of_ne_nil (natToChars_ne_nil i.toNat)
    have hcd : c.isDigit = true := natToChars_digits i.toNat c (by rw [hcons]; simp)
    rw [hcons, List.cons_append, dropWhile_of_head_false c _ (digit_not_ws c hcd)]
    simp only [parseSigned, if_neg (digit_ne_minus c hcd), if_neg (digit_ne_plus c hcd)]
    rw [← List.cons_append, ← hcons, parseNatPart_append i.toNat y r hy]
    simp only [Option.map_some']
    rw [Int.toNat_of_nonneg (by omega)]

theorem token_all_nonws (cs : List Char) (h : ∀ c ∈ cs, isWsChar c = false)
    (hne : cs ≠ []) : token cs = some (cs, []) := by
  unfold token
  obtain ⟨c, r, hcons⟩ := List.exists_cons_of_ne_nil hne
  have hdrop : List.dropWhile isWsChar cs = cs := by
    rw [hcons]; exact dropWhile_of_head_false c r (h c (by rw [hcons]; simp))
  have htake : cs.takeWhile (fun c => !isWsChar c) = cs :=
    takeWhile_all cs (fun x hx => by simp [h x hx])
  have hdrop2 : cs.dropWhile (fun c => !isWsChar c) = [] :=
    dropWhile_all cs (fun x hx => by simp [h x hx])
  simp only [hdrop, htake, hdrop2]
  rw [if_neg (by simpa [List.isEmpty_eq_false] using hne)]

theorem b64Index_b64Char (n : Nat) (h : n < 64) : b64Index (b64Char n) = some n := by
  have hfin : ∀ m : Fin 64, b64Index (b64Char m.val) = some m.val := by decide
  exact hfin ⟨n, h⟩

theorem b64Alphabet_length : b64Alphabet.length = 64 := rfl

theorem b64Char_ne_pad (n : Nat) : b64Char n ≠ '=' := by
  by_cases h : n < 64
  · have hfin : ∀ m : Fin 64, b64Char m.val ≠ '=' := by decide
    exact hfin ⟨n, h⟩
  · unfold b64Char
    rw [List.getD_eq_default _ _ (by rw [b64Alphabet_length]; omega)]
    decide

theorem b64Char_not_ws (n : Nat) : isWsChar (b64Char n) = false := by
  by_cases h : n < 64
  · have hfin : ∀ m : Fin 64, isWsChar (b64Char m.val) = false := by decide
    exact hfin ⟨n, h⟩
  · unfold b64Char
    rw [List.getD_eq_default _ _ (by rw [b64Alphabet_length]; omega)]
    decide

theorem b64Encode_not_ws (bs : List Nat) : ∀ c ∈ b64Encode bs, isWsChar c = false := by
  induction bs using b64Encode.induct with
  | case1 => intro c hc; simp [b64Encode] at hc
  | case2 b1 =>
    intro c hc
    simp only [b64Encode, List.mem_cons, List.mem_singleton, List.not_mem_nil, or_false] at hc
    rcases hc with hc | hc | hc | hc <;> first | (subst hc; first | apply b64Char_not_ws | decide)
  | case3 b1 b2 =>
    intro c hc
    simp only [b64Encode, List.mem_cons, List.mem_singleton, List.not_mem_nil, or_false] at hc
    rcases hc with hc | hc | hc | hc <;> first | (subst hc; first | apply b64Char_not_ws | decide)
  | case4 b1 b2 b3 rest ih =>
    intro c hc
    simp only [b64Encode, List.mem_cons] at hc
    rcases hc with hc | hc | hc | hc | hc
    · subst hc; apply b64Char_not_ws
    · subst hc; apply b64Char_not_ws
    · subst hc; apply b64Char_not_ws
    · subst hc; apply b64Char_not_ws
    · exact ih c hc

theorem b64Encode_ne_nil (bs : List Nat) (h : bs ≠ []) : b64Encode bs ≠ [] := by
  match bs with
  | [] => exact absurd rfl h
  | [b1] => simp [b64Encode]
  | [b1, b2] => simp [b64Encode]
  | b1 :: b2 :: b3 :: rest => simp [b64Encode]

theorem b64_roundtrip (bs : List Nat) (h : ∀ b ∈ bs, b < 256) :
    b64Decode (b64Encode bs) = some bs := by
  induction bs using b64Encode.induct with
  | case1 => rfl
  | case2 b1 =>
    have h1 : b1 < 256 := h b1 (by simp)
    have e1 := b64Index_b64Char (b1 / 4) (by omega)
    have e2 := b64Index_b64Char (b1 % 4 * 16) (by omega)
    simp [b64Encode, b64Decode, e1, e2]
    omega
  | case3 b1 b2 =>
    have h1 : b1 < 256 := h b1 (by simp)
    have h2 : b2 < 256 := h b2 (by simp)
    have e1 := b64Index_b64Char (b1 / 4) (by omega)
    have e2 := b64Index_b64Char (b1 % 4 * 16 + b2 / 16) (by omega)
    have e3 := b64Index_b64Char (b2 % 16 * 4) (by omega)
    have hp : b64Char (b2 % 16 * 4) ≠ '=' := b64Char_ne_pad (b2 % 16 * 4)
    simp [b64Encode, b64Decode, e1, e2, e3, hp]
    omega
  | case4 b1 b2 b3 rest ih =>
    have h1 : b1 < 256 := h b1 (by simp)
    have h2 : b2 < 256 := h b2 (by simp)
    have h3 : b3 < 256 := h b3 (by simp)
    have hrest := ih (fun b hb => h b (by simp [hb]))
    have e1 := b64Index_b64Char (b1 / 4) (by omega)
    have e2 := b64Index_b64Char (b1 % 4 * 16 + b2 / 16) (by omega)
    have e3 := b64Index_b64Char (b2 % 16 * 4 + b3 / 64) (by omega)
    have e4 := b64Index_b64Char (b3 % 64) (by omega)
    have hp3 : b64Char (b2 % 16 * 4 + b3 / 64) ≠ '=' := b64Char_ne_pad _
    have hp4 : b64Char (b3 % 64) ≠ '=' := b64Char_ne_pad _
    simp [b64Encode, b64Decode, e1, e2, e3, e4, hp3, hp4, hrest]
    omega

theorem bytesStr_strBytes (cs : List Char) : bytesStr (strBytes cs) = cs := by
  unfold bytesStr strBytes
  rw [List.map_map]
  have hcomp : (Char.ofNat ∘ Char.toNat) = id := funext fun c => Char.ofNat_toNat c
  rw [hcomp, List.map_id]

theorem strBytes_bounds (cs : List Char) (h : byteSized cs = true) :
    ∀ b ∈ strBytes cs, b < 256 := by
  unfold byteSized at h
  rw [List.all_eq_true] at h
  intro b hb
  rcases List.mem_map.mp hb with ⟨c, hc, hbc⟩
  subst hbc
  simpa using h c hc

theorem intToChars_ne_nil (i : Int) : intToChars i ≠ [] := by
  unfold intToChars
  by_cases hneg : i < 0
  · simp [hneg]
  · simp only [if_neg hneg]
    exact natToChars_ne_nil i.toNat

theorem serializeVal_ne_nil (j : Json) : serializeVal j ≠ [] := by
  cases j with
  | null => simp [serializeVal]
  | bool b => cases b <;> simp [serializeVal]
  | num n => simpa [serializeVal] using intToChars_ne_nil n
  | str s => simp [serializeVal, serializeString]
  | arr es => simp [serializeVal]
  | obj fs => simp [serializeVal]

theorem canonicalizeChars_ne_nil (s : String) : canonicalizeChars s ≠ [] := by
  unfold canonicalizeChars
  cases hp : parseTop s with
  | none => simp
  | some j => exact serializeVal_ne_nil j

theorem strBytes_ne_nil (cs : List Char) (h : cs ≠ []) : strBytes cs ≠ [] := by
  unfold strBytes
  simpa using h

/-! Scanning the generated topic. -/

theorem topicRest_not_ws (c : Int) (seg : List Char)
    (hws : ∀ ch ∈ seg, isWsChar ch = false) :
    ∀ ch ∈ topicChainLit ++ (intToChars c ++ (topicSchemaLit ++ seg)), isWsChar ch = false := by
  intro ch hch
  simp only [List.mem_append] at hch
  rcases hch with hch | hch | hch | hch
  · exact (by decide : ∀ x ∈ topicChainLit, isWsChar x = false) ch hch
  · exact intToChars_not_ws c ch hch
  · exact (by decide : ∀ x ∈ topicSchemaLit, isWsChar x = false) ch hch
  · exact hws ch hch

theorem sscanfVersion_mkTopic (c : Int) (seg : List Char)
    (hws : ∀ ch ∈ seg, isWsChar ch = false) :
    sscanfVersion (mkTopicChars c seg) =
      some (pubsubTopicVersion, topicChainLit ++ intToChars c ++ topicSchemaLit ++ seg) := by
  have hall := topicRest_not_ws c seg hws
  have hnil : topicChainLit ++ (intToChars c ++ (topicSchemaLit ++ seg)) ≠ [] := by
    simp [topicChainLit]
  have htok := token_all_nonws _ hall hnil
  have hint : parseIntFrom (intToChars pubsubTopicVersion ++
      (topicChainLit ++ (intToChars c ++ (topicSchemaLit ++ seg)))) =
      some (pubsubTopicVersion, topicChainLit ++ (intToChars c ++ (topicSchemaLit ++ seg))) :=
    parseIntFrom_intToChars pubsubTopicVersion '/' _ (by decide)
  unfold sscanfVersion mkTopicChars
  simp only [List.append_assoc]
  rw [dropLiteral_append, Option.some_bind, hint, Option.some_bind]
  simp [htok, List.append_assoc]

theorem sscanfChainSchema_mkTopic (c : Int) (seg : List Char)
    (hws : ∀ ch ∈ seg, isWsChar ch = false) (hne : seg ≠ []) :
    sscanfChainSchema (topicChainLit ++ intToChars c ++ topicSchemaLit ++ seg) =
      some (c, seg) := by
  have hint : parseIntFrom (intToChars c ++ (topicSchemaLit ++ seg)) =
      some (c, topicSchemaLit ++ seg) :=
    parseIntFrom_intToChars c '/' _ (by decide)
  unfold sscanfChainSchema
  simp only [List.append_assoc]
  rw [dropLiteral_append, Option.some_bind, hint, Option.some_bind]
  simp [dropLiteral_append, token_all_nonws seg hws hne]

theorem generateTopic_ne_empty (c : Int) (s : String) : generateTopic c s ≠ "" := by
  intro he
  have hd : mkTopicChars c (b64Encode (strBytes (canonicalizeChars s))) = [] :=
    congrArg String.data he
  simp [mkTopicChars, topicVersionLit] at hd

theorem flatMap_congr {α β : Type} (l : List α) (f g : α → List β)
    (h : ∀ a ∈ l, f a = g a) : l.flatMap f = l.flatMap g := by
  induction l with
  | nil => rfl
  | cons x xs ih =>
    simp only [List.flatMap_cons]
    rw [h x (by simp), ih (fun a ha => h a (by simp [ha]))]

theorem lookup_removeField (fields : List (String × Json)) (fname : String) :
    (removeField fields fname).lookup fname = none := by
  induction fields with
  | nil => rfl
  | cons kv rest ih =>
    obtain ⟨k, v⟩ := kv
    simp only [removeField, List.filter_cons] at ih ⊢
    by_cases hk : k = fname
    · have hbeq : (!(k == fname)) = false := by simp [hk]
      rw [if_neg (by simp [hbeq])]
      exact ih
    · have hbeq : (!(k == fname)) = true := by simp [hk]
      rw [if_pos hbeq]
      have hbeq2 : (fname == k) = false := by simp [Ne.symm hk]
      simp only [List.lookup, hbeq2]
      exact ih

theorem topicStep_fields (f : Filter) :
    (topicStep f).version = f.version ∧
    (topicStep f).chainID = f.chainID ∧
    (topicStep f).rawCustomOrderSchema = f.rawCustomOrderSchema ∧
    (topicStep f).orderSchema = f.orderSchema ∧
    (topicStep f).messageSchema = f.messageSchema := by
  unfold topicStep Topic
  by_cases h : f.topic = "" <;> simp [h]

/-! The claims. -/

/-- C1: for every chainID and every custom-order-schema text for which the
encoding succeeds (in the model: the canonicalized text consists of
single-byte characters), the parsing stage of `NewFromTopic` applied to the
topic produced by `generateTopic` returns the same chainID together with the
canonicalized schema text. -/
theorem topic_decode_encode_roundtrip (c : Int) (s : String)
    (h : byteSized (canonicalizeChars s) = true) :
    decodeTopic (generateTopic c s) = Except.ok (c, String.mk (canonicalizeChars s)) := by
  have hbytes : ∀ b ∈ strBytes (canonicalizeChars s), b < 256 := strBytes_bounds _ h
  have hsegws : ∀ ch ∈ b64Encode (strBytes (canonicalizeChars s)), isWsChar ch = false :=
    b64Encode_not_ws _
  have hsegne : b64Encode (strBytes (canonicalizeChars s)) ≠ [] :=
    b64Encode_ne_nil _ (strBytes_ne_nil _ (canonicalizeChars_ne_nil s))
  unfold decodeTopic generateTopic
  have hdata : (String.mk (mkTopicChars c (b64Encode (strBytes (canonicalizeChars s))))).data
      = mkTopicChars c (b64Encode (strBytes (canonicalizeChars s))) := rfl
  rw [hdata, sscanfVersion_mkTopic c _ hsegws]
  simp only [decodeTopicVersion]
  rw [if_neg (by simp)]
  rw [sscanfChainSchema_mkTopic c _ hsegws hsegne]
  simp only [decodeTopicSchema]
  rw [b64_roundtrip _ hbytes]
  simp [bytesStr_strBytes]

/-- C1 witness: the roundtrip evaluated at chain 1 and a concrete two-member
schema text with spaces and unsorted keys. -/
theorem topic_decode_encode_roundtrip_witness :
    byteSized (canonicalizeChars "\x7b\"b\": 1, \"a\": 2\x7d") = true ∧
    decodeTopic (generateTopic 1 "\x7b\"b\": 1, \"a\": 2\x7d") =
      Except.ok (1, String.mk (canonicalizeChars "\x7b\"b\": 1, \"a\": 2\x7d")) :=
  ⟨by decide, topic_decode_encode_roundtrip 1 "\x7b\"b\": 1, \"a\": 2\x7d" (by decide)⟩

/-- C2 (documenting the code bug): for every chainID the external address
lookup does not know, `New(chainID, DefaultCustomOrderSchema)` does not return the lookup error:
the error of `newLoader` is discarded at filter.go:65 and `Compile` is invoked on
the nil loader at filter.go:66, a run-time nil-pointer-dereference panic —
not the `NetworkLookupError` return without a crash that the claim
states. -/
theorem new_unknown_network_nil_panic (chainID : Int)
    (h : knownExchangeAddresses.lookup chainID = none) :
    New chainID "\x7b\x7d" = NewOutcome.nilDerefPanic := by
  unfold New newLoader loadExchangeAddress GetContractAddressesForChainID
  rw [h]

/-- C2 witness: the panic outcome at the concrete unknown chain 123456789. -/
theorem new_unknown_network_nil_panic_witness :
    knownExchangeAddresses.lookup (123456789 : Int) = none ∧
    New 123456789 "\x7b\x7d" = NewOutcome.nilDerefPanic :=
  ⟨rfl, new_unknown_network_nil_panic 123456789 rfl⟩

/-- C3: every topic string whose version segment scans to an integer other
than 3 makes `NewFromTopic` fail with `WrongTopicVersionError` carrying
expected 3 and the parsed actual version, without proceeding to the chainID
or schema segments or to filter construction. -/
theorem newFromTopic_wrong_version_rejected (t : String) (v : Int) (rest : List Char)
    (hscan : sscanfVersion t.data = some (v, rest)) (hv : v ≠ 3) :
    NewFromTopic t = NewOutcome.err (FilterError.wrongTopicVersion 3 v) := by
  unfold NewFromTopic decodeTopic
  rw [hscan]
  simp only [decodeTopicVersion]
  rw [if_pos (show ¬(v = pubsubTopicVersion) by simpa [pubsubTopicVersion] using hv)]
  rfl

/-- C3 witness: a version-2 topic is rejected with expected 3, actual 2. -/
theorem newFromTopic_wrong_version_rejected_witness :
    sscanfVersion "/0x-orders/version/2/chain/1/schema/e30=".data =
      some (2, "/chain/1/schema/e30=".data) ∧
    (2 : Int) ≠ 3 ∧
    NewFromTopic "/0x-orders/version/2/chain/1/schema/e30=" =
      NewOutcome.err (FilterError.wrongTopicVersion 3 2) :=
  ⟨rfl, by decide, newFromTopic_wrong_version_rejected _ 2 _ rfl (by decide)⟩

/-- C6: on a filter whose topic cache is empty (as `New` constructs it), the
first `Topic()` call returns the topic generated from the chainID and the
raw custom order schema and caches exactly that string, and calling `Topic()`
again on the resulting state returns the identical string and state, so all
subsequent calls yield the same value. -/
theorem topic_memoization_idempotent (f : Filter) (h : f.topic = "") :
    (Topic f).1 = generateTopic f.chainID f.rawCustomOrderSchema ∧
    (Topic f).2.topic = generateTopic f.chainID f.rawCustomOrderSchema ∧
    Topic (Topic f).2 = Topic f := by
  have h1 : Topic f = (generateTopic f.chainID f.rawCustomOrderSchema,
      { f with topic := generateTopic f.chainID f.rawCustomOrderSchema }) := by
    unfold Topic
    rw [if_pos h]
  have hne : generateTopic f.chainID f.rawCustomOrderSchema ≠ "" :=
    generateTopic_ne_empty f.chainID f.rawCustomOrderSchema
  have h2 : Topic ({ f with topic := generateTopic f.chainID f.rawCustomOrderSchema }) =
      (generateTopic f.chainID f.rawCustomOrderSchema,
       { f with topic := generateTopic f.chainID f.rawCustomOrderSchema }) := by
    unfold Topic
    rw [if_neg hne]
  refine ⟨by rw [h1], by rw [h1], ?_⟩
  rw [h1]
  exact h2

/-- C6 witness: memoization evaluated on a concrete freshly built filter. -/
theorem topic_memoization_idempotent_witness :
    (Topic sampleFilterC).1 = generateTopic sampleFilterC.chainID sampleFilterC.rawCustomOrderSchema ∧
    (Topic sampleFilterC).2.topic = generateTopic sampleFilterC.chainID sampleFilterC.rawCustomOrderSchema ∧
    Topic (Topic sampleFilterC).2 = Topic sampleFilterC :=
  topic_memoization_idempotent sampleFilterC rfl

/-- C9: `generateTopic` is a total function: when the stored schema text is
not decodable JSON the canonicalization errors are discarded and the topic
embeds the base64url encoding of the canonical serialization of the untouched
empty holder value, the two bytes of `{}`. -/
theorem generateTopic_total_undecodable_embeds_empty (c : Int) (s : String)
    (h : parseTop s = none) :
    generateTopic c s = String.mk (mkTopicChars c (b64Encode (strBytes "\x7b\x7d".data))) := by
  unfold generateTopic canonicalizeChars
  rw [h]

/-- C9 witness: a non-JSON schema text still yields the topic with the
`e30=` (empty object) schema segment. -/
theorem generateTopic_total_undecodable_embeds_empty_witness :
    parseTop "not json" = none ∧
    generateTopic 7 "not json" =
      String.mk (mkTopicChars 7 (b64Encode (strBytes "\x7b\x7d".data))) :=
  ⟨rfl, generateTopic_total_undecodable_embeds_empty 7 "not json" rfl⟩

/-- C10: any number of `Topic()` calls changes at most the topic cache: the
chainID, raw custom order schema, order schema, message schema (and the
version field) keep their construction-time values. -/
theorem topic_frame_preserves_fields (f : Filter) (n : Nat) :
    (topicStep^[n] f).chainID = f.chainID ∧
    (topicStep^[n] f).rawCustomOrderSchema = f.rawCustomOrderSchema ∧
    (topicStep^[n] f).orderSchema = f.orderSchema ∧
    (topicStep^[n] f).messageSchema = f.messageSchema ∧
    (topicStep^[n] f).version = f.version := by
  induction n with
  | zero => simp
  | succ n ih =>
    rw [Function.iterate_succ_apply']
    have hs := topicStep_fields (topicStep^[n] f)
    exact ⟨hs.2.1.trans ih.1, hs.2.2.1.trans ih.2.1, hs.2.2.2.1.trans ih.2.2.1,
           hs.2.2.2.2.trans ih.2.2.2.1, hs.1.trans ih.2.2.2.2⟩

/-- C4: two filters built with the same chainID from custom-order-schema
texts that decode to the same JSON value (same keys and values, regardless of
whitespace or key order) produce the identical topic string through
`Topic()`. -/
theorem topic_canonicalization_invariance (f1 f2 : Filter)
    (h1 : f1.topic = "") (h2 : f2.topic = "")
    (hc : f1.chainID = f2.chainID)
    (hp : parseTop f1.rawCustomOrderSchema = parseTop f2.rawCustomOrderSchema) :
    (Topic f1).1 = (Topic f2).1 := by
  unfold Topic
  rw [if_pos h1, if_pos h2]
  show generateTopic f1.chainID f1.rawCustomOrderSchema =
      generateTopic f2.chainID f2.rawCustomOrderSchema
  unfold generateTopic canonicalizeChars
  rw [hp, hc]

/-- C4 witness: two schema texts differing in key order and whitespace give
the same topic for chain 1. -/
theorem topic_canonicalization_invariance_witness :
    sampleFilterA.topic = "" ∧ sampleFilterB.topic = "" ∧
    sampleFilterA.chainID = sampleFilterB.chainID ∧
    parseTop sampleFilterA.rawCustomOrderSchema = parseTop sampleFilterB.rawCustomOrderSchema ∧
    (Topic sampleFilterA).1 = (Topic sampleFilterB).1 :=
  ⟨rfl, rfl, rfl, rfl, topic_canonicalization_invariance sampleFilterA sampleFilterB rfl rfl rfl rfl⟩

/-- C5: for every network of the modelled address table, the composed order
validator gives the same verdict on a document whose `exchangeAddress` is the
lowercased resolved address as on the otherwise identical document carrying
the checksummed address. -/
theorem exchange_address_case_tolerance (cid : Int) (addr : String)
    (hmem : (cid, addr) ∈ knownExchangeAddresses) (rest : List (String × Json)) :
    (validateOrderDoc addr (Json.obj (("exchangeAddress", Json.str (lowerString addr)) :: rest))).valid =
      (validateOrderDoc addr (Json.obj (("exchangeAddress", Json.str addr) :: rest))).valid := by
  have hmem2 : (cid = 1 ∧ addr = "0x61935CbDd02287B511119DDb11Aeb42F1593b7Ef") ∨
      (cid = 1337 ∧ addr = "0x48BaCB9266a570d521063EF5dD96e61686DbE788") := by
    simpa [knownExchangeAddresses, Prod.ext_iff] using hmem
  have haddr1 : exchangeAddressOK addr (Json.str addr) = true := by
    rcases hmem2 with ⟨_, ha⟩ | ⟨_, ha⟩ <;> rw [ha] <;> decide
  have haddr2 : exchangeAddressOK addr (Json.str (lowerString addr)) = true := by
    rcases hmem2 with ⟨_, ha⟩ | ⟨_, ha⟩ <;> rw [ha] <;> decide
  have hv : rootOrderViolations addr
        (Json.obj (("exchangeAddress", Json.str (lowerString addr)) :: rest)) =
      rootOrderViolations addr (Json.obj (("exchangeAddress", Json.str addr) :: rest)) := by
    simp only [rootOrderViolations]
    apply flatMap_congr
    intro spec hspec
    simp only [orderFieldSpecs, List.mem_cons, List.not_mem_nil, or_false] at hspec
    rcases hspec with h | h | h | h | h | h | h | h | h | h | h | h | h | h <;> subst h <;>
      simp [fieldViolations, List.lookup, haddr1, haddr2]
  simp [validateOrderDoc, ValidationResult.valid, hv]

/-- C5 witness: the lowercased and checksummed mainnet exchange address give
the same verdict. -/
theorem exchange_address_case_tolerance_witness :
    ((1 : Int), sampleExchangeAddress) ∈ knownExchangeAddresses ∧
    (validateOrderDoc sampleExchangeAddress
        (Json.obj [("exchangeAddress", Json.str (lowerString sampleExchangeAddress))])).valid =
      (validateOrderDoc sampleExchangeAddress
        (Json.obj [("exchangeAddress", Json.str sampleExchangeAddress)])).valid :=
  ⟨by decide, exchange_address_case_tolerance 1 sampleExchangeAddress (by decide) []⟩

/-- C7: a signed-order JSON document that contains every required field with
a correctly shaped value validates as valid against the order validator of a
filter with the default custom schema. -/
theorem wellshaped_order_validates (f : Filter) (s : String) (fields : List (String × Json))
    (hp : parseTop s = some (Json.obj fields))
    (h : orderFieldsWellShaped f.orderSchema.exchangeAddress fields = true) :
    ValidateOrderJSON f s =
      Except.ok (validateOrderDoc f.orderSchema.exchangeAddress (Json.obj fields)) ∧
    (validateOrderDoc f.orderSchema.exchangeAddress (Json.obj fields)).valid = true := by
  have hnil : rootOrderViolations f.orderSchema.exchangeAddress (Json.obj fields) = [] := by
    simp only [rootOrderViolations]
    rw [List.flatMap_eq_nil_iff]
    unfold orderFieldsWellShaped at h
    rw [List.all_eq_true] at h
    intro spec hspec
    have hs := h spec hspec
    unfold fieldViolations
    cases hl : fields.lookup spec.1 with
    | none => rw [hl] at hs; simp at hs
    | some v =>
      rw [hl] at hs
      simp at hs
      simp [hs]
  constructor
  · unfold ValidateOrderJSON
    rw [hp]
  · simp [validateOrderDoc, ValidationResult.valid, hnil]

set_option maxRecDepth 100000 in
/-- C7 witness: a concrete complete signed-order document parsed from JSON
text validates as valid. -/
theorem wellshaped_order_validates_witness :
    parseTop sampleOrderText = some (Json.obj sampleOrderFields) ∧
    orderFieldsWellShaped sampleOrderFilter.orderSchema.exchangeAddress sampleOrderFields = true ∧
    (ValidateOrderJSON sampleOrderFilter sampleOrderText =
      Except.ok (validateOrderDoc sampleOrderFilter.orderSchema.exchangeAddress
        (Json.obj sampleOrderFields)) ∧
    (validateOrderDoc sampleOrderFilter.orderSchema.exchangeAddress
        (Json.obj sampleOrderFields)).valid = true) :=
  ⟨rfl, by decide,
   wellshaped_order_validates sampleOrderFilter sampleOrderText sampleOrderFields rfl (by decide)⟩

/-- C8: removing any one required field from an otherwise valid signed-order
document makes `ValidateOrderJSON` report an invalid result whose violation
list contains a missing-required violation naming that field. -/
theorem missing_required_field_invalidates (f : Filter) (s2 : String)
    (fields : List (String × Json)) (fname : String)
    (hreq : fname ∈ requiredOrderFields)
    (_hvalid : (validateOrderDoc f.orderSchema.exchangeAddress (Json.obj fields)).valid = true)
    (hp2 : parseTop s2 = some (Json.obj (removeField fields fname))) :
    ValidateOrderJSON f s2 =
      Except.ok (validateOrderDoc f.orderSchema.exchangeAddress
        (Json.obj (removeField fields fname))) ∧
    (validateOrderDoc f.orderSchema.exchangeAddress
        (Json.obj (removeField fields fname))).valid = false ∧
    Violation.missingRequired fname ∈
      (validateOrderDoc f.orderSchema.exchangeAddress
        (Json.obj (removeField fields fname))).violations := by
  have hmem : Violation.missingRequired fname ∈
      rootOrderViolations f.orderSchema.exchangeAddress (Json.obj (removeField fields fname)) := by
    simp only [rootOrderViolations]
    rw [List.mem_flatMap]
    have hlook := lookup_removeField fields fname
    have hmap : fname ∈ (orderFieldSpecs f.orderSchema.exchangeAddress).map Prod.fst := by
      have hsame : requiredOrderFields =
          (orderFieldSpecs f.orderSchema.exchangeAddress).map Prod.fst := rfl
      rw [← hsame]
      exact hreq
    rcases List.mem_map.mp hmap with ⟨spec, hspec, hfst⟩
    refine ⟨spec, hspec, ?_⟩
    unfold fieldViolations
    rw [hfst, hlook]
    simp
  refine ⟨?_, ?_, hmem⟩
  · unfold ValidateOrderJSON
    rw [hp2]
  · have hne : rootOrderViolations f.orderSchema.exchangeAddress
        (Json.obj (removeField fields fname)) ≠ [] := List.ne_nil_of_mem hmem
    simp [validateOrderDoc, ValidationResult.valid, hne]

set_option maxRecDepth 100000 in
/-- C8 witness: removing `salt` from a concrete valid order document makes
the validator report invalid with a missing-`salt` violation. -/
theorem missing_required_field_invalidates_witness :
    "salt" ∈ requiredOrderFields ∧
    (validateOrderDoc sampleOrderFilter.orderSchema.exchangeAddress
        (Json.obj sampleOrderFields)).valid = true ∧
    parseTop sampleOrderMinusSaltText = some (Json.obj (removeField sampleOrderFields "salt")) ∧
    (ValidateOrderJSON sampleOrderFilter sampleOrderMinusSaltText =
      Except.ok (validateOrderDoc sampleOrderFilter.orderSchema.exchangeAddress
        (Json.obj (removeField sampleOrderFields "salt"))) ∧
    (validateOrderDoc sampleOrderFilter.orderSchema.exchangeAddress
        (Json.obj (removeField sampleOrderFields "salt"))).valid = false ∧
    Violation.missingRequired "salt" ∈
      (validateOrderDoc sampleOrderFilter.orderSchema.exchangeAddress
        (Json.obj (removeField sampleOrderFields "salt"))).violations) :=
  ⟨by decide, by decide, rfl,
   missing_required_field_invalidates sampleOrderFilter sampleOrderMinusSaltText
     sampleOrderFields "salt" (by decide) (by decide) rfl⟩

end OrderFilter
